import Mathlib

/-!
# Shallow embedding of the D&D combat-encounter core

This development embeds the combat subsystem of the repository
(`tools/combat_tracker.py`, `tools/dice.py`, and the combat-relevant parts of
`agents/combat_agent.py`) as executable Lean definitions, and settles the
specification claims about it as theorems.

Modelling conventions:
* Python `int` becomes `Int`; Python floor division `//` becomes `Int.fdiv`.
* Python's insertion-ordered `dict` keyed by combatant name becomes an
  association list `List (String × Combatant)`; in-place mutation of an entry
  becomes a key-preserving map over that list.
* Randomness (`random.randint`, `roll_dice`) is made explicit: every function
  that draws dice takes the raw draw values (or a stream / oracle of draw
  values) as extra parameters, exactly one per draw the Python code performs.
* The append-only narrative `log` and the human-readable message strings are
  write-only in the source (never read back, never branched on); they are not
  part of the state modelled here.  All fields that the code reads are kept.
-/

namespace Spec2Proof

/-- A status condition, as stored in `Combatant.conditions`
(`{"name": ..., "duration": ...}` dicts in `combat_tracker.py`). -/
structure Condition where
  name : String
  duration : Int
  deriving Repr, DecidableEq

/-- `Combatant.__init__` from `tools/combat_tracker.py`.
`initiative_mod` stores `initiative_mod or dex_mod` exactly as the
constructor does; `position` is the `{"x": 0, "y": 0}` dict. -/
structure Combatant where
  name : String
  ac : Int
  hp : Int
  max_hp : Int
  initiative_mod : Int
  initiative_roll : Int
  is_player : Bool
  conditions : List Condition
  attack_bonus : Int
  dex_mod : Int
  position : Int × Int
  active : Bool
  deriving Repr, DecidableEq

/-- `Combatant.take_damage`: clamp hp at 0; at 0 the combatant is
deactivated, otherwise `active` is left as it was. -/
def take_damage (c : Combatant) (amount : Int) : Combatant :=
  let hp := max 0 (c.hp - amount)
  { c with hp := hp, active := if hp = 0 then false else c.active }

/-- `Combatant.heal`: clamp hp at `max_hp`; the combatant is reactivated
whenever the resulting hp is positive. -/
def heal (c : Combatant) (amount : Int) : Combatant :=
  let hp := min c.max_hp (c.hp + amount)
  { c with hp := hp, active := if hp > 0 then true else c.active }

/-- `Combatant.add_condition`: unconditionally append a
`{"name": condition, "duration": duration}` entry. -/
def add_condition (c : Combatant) (condition : String) (duration : Int) : Combatant :=
  { c with conditions := c.conditions ++ [⟨condition, duration⟩] }

/-- `Combatant.remove_condition`: drop the first condition with the given
name, reporting whether one was found. -/
def remove_condition (c : Combatant) (condition : String) : Bool × Combatant :=
  if c.conditions.any (fun e => e.name == condition) then
    (true, { c with conditions :=
      c.conditions.eraseP (fun e => e.name == condition) })
  else
    (false, c)

/-- The per-condition step of `Combatant.update_conditions`: a positive
duration is decremented, other durations are untouched. -/
def decCond (e : Condition) : Condition :=
  if e.duration > 0 then { e with duration := e.duration - 1 } else e

/-- The list-level effect of `Combatant.update_conditions`: decrement the
positive durations, then keep entries whose duration is `> 0 or < 0`
(i.e. nonzero). -/
def tickConditions (l : List Condition) : List Condition :=
  (l.map decCond).filter (fun e => e.duration != 0)

/-- `Combatant.update_conditions`: returns the expired conditions together
with the updated combatant.  A positive duration reaches 0 after the
decrement exactly when it was 1, which is how `expired` is phrased here. -/
def update_conditions (c : Combatant) : List Condition × Combatant :=
  let expired := (c.conditions.filter (fun e => e.duration == 1)).map decCond
  (expired, { c with conditions := tickConditions c.conditions })

/-- Count how many of the combatant's conditions carry the given kind. -/
def countKind (c : Combatant) (kind : String) : Nat :=
  (c.conditions.filter (fun e => e.name == kind)).length

/-- Iterated end-of-turn ticking of one combatant
(`update_conditions` applied `k` times, keeping only the combatant). -/
def tickCombatantN : Nat → Combatant → Combatant
  | 0, c => c
  | k + 1, c => tickCombatantN k (update_conditions c).2

/-- Iterated end-of-turn ticking of a condition list. -/
def tickListN : Nat → List Condition → List Condition
  | 0, l => l
  | k + 1, l => tickListN k (tickConditions l)

/-- `CombatTracker.__init__`: the encounter state.  `combatants` models the
insertion-ordered Python dict keyed by combatant name. -/
structure CombatTracker where
  combatants : List (String × Combatant)
  initiative_order : List String
  current_turn : Nat
  round_number : Int
  active : Bool
  deriving Repr, DecidableEq

/-- Dict lookup `self.combatants[name]` (as an `Option`). -/
def findCombatant (tr : CombatTracker) (name : String) : Option Combatant :=
  (tr.combatants.find? (fun p => p.1 == name)).map (fun p => p.2)

/-- A placeholder combatant used to totalise dict lookups whose success the
Python code takes for granted (a missing key would raise there). -/
def defaultCombatant : Combatant :=
  ⟨"", 0, 0, 0, 0, 0, false, [], 0, 0, (0, 0), true⟩

/-- Total lookup used where the Python code indexes the dict directly. -/
def getCombatantD (tr : CombatTracker) (name : String) : Combatant :=
  (findCombatant tr name).getD defaultCombatant

/-- In-place mutation of the dict entry with the given key. -/
def setCombatant (tr : CombatTracker) (name : String) (c : Combatant) :
    CombatTracker :=
  { tr with combatants :=
      tr.combatants.map (fun p => if p.1 == name then (p.1, c) else p) }

/-- `self.initiative_order[self.current_turn]` (defaulted; the code would
raise on an empty order). -/
def currentName (tr : CombatTracker) : String :=
  tr.initiative_order.getD tr.current_turn ""

/-- `CombatTracker.get_current_combatant` (the combatant it returns when it
does not raise). -/
def get_current_combatant (tr : CombatTracker) : Combatant :=
  getCombatantD tr (currentName tr)

/-- Result dict of `CombatTracker.apply_damage` / `apply_healing`
(narrative `message` strings omitted). -/
structure DamageResult where
  success : Bool
  old_hp : Int
  new_hp : Int
  defeated : Bool
  revived : Bool
  deriving Repr, DecidableEq

/-- `CombatTracker.apply_damage`: validate the target key, then mutate that
combatant via `take_damage` and report old/new hp and defeat. -/
def apply_damage (tr : CombatTracker) (target_name : String) (amount : Int) :
    DamageResult × CombatTracker :=
  match findCombatant tr target_name with
  | none => (⟨false, 0, 0, false, false⟩, tr)
  | some target =>
    let old_hp := target.hp
    let target' := take_damage target amount
    (⟨true, old_hp, target'.hp, old_hp > 0 && target'.hp == 0, false⟩,
      setCombatant tr target_name target')

/-- `CombatTracker.apply_healing`: validate the target key, then mutate that
combatant via `heal` and report old/new hp and revival. -/
def apply_healing (tr : CombatTracker) (target_name : String) (amount : Int) :
    DamageResult × CombatTracker :=
  match findCombatant tr target_name with
  | none => (⟨false, 0, 0, false, false⟩, tr)
  | some target =>
    let old_hp := target.hp
    let target' := heal target amount
    (⟨true, old_hp, target'.hp, false, old_hp == 0 && target'.hp > 0⟩,
      setCombatant tr target_name target')

/-- `CombatTracker.add_condition` (tracker level): validate the target key,
then append the condition to that combatant. -/
def tracker_add_condition (tr : CombatTracker) (target_name : String)
    (condition : String) (duration : Int) : Bool × CombatTracker :=
  match findCombatant tr target_name with
  | none => (false, tr)
  | some target =>
    (true, setCombatant tr target_name (add_condition target condition duration))

/-- `CombatTracker.check_combat_end`: combat should end when either side has
no active combatant left. -/
def check_combat_end (tr : CombatTracker) : Bool :=
  if tr.active = false then true
  else
    let active_players :=
      (tr.combatants.filter (fun p => p.2.is_player && p.2.active)).length
    let active_enemies :=
      (tr.combatants.filter (fun p => !p.2.is_player && p.2.active)).length
    active_players == 0 || active_enemies == 0

/-- Outcome of `CombatTracker.next_turn` (the string/dict pair it returns,
with the narrative text reduced to its structure). -/
inductive NextTurnResult where
  | notActive
  | turnOf (name : String) (newRound : Option Int)
  | endedCombat
  | cannotEnd
  deriving Repr, DecidableEq

/-- `CombatTracker.end_combat`: deactivate and summarise when
`check_combat_end` agrees (or the tracker is already inactive), otherwise
refuse to end. -/
def end_combat (tr : CombatTracker) : NextTurnResult × CombatTracker :=
  if check_combat_end tr || tr.active = false then
    (.endedCombat, { tr with active := false })
  else
    (.cannotEnd, tr)

/-- The `while not ... .active` skip loop of `CombatTracker.next_turn`,
with explicit fuel (one unit per iteration; `next_turn` passes enough fuel
for a full lap).  `none` is the loop's wrap-to-index-0 exit, which the
Python code turns into `end_combat`. -/
def skipLoop (tr : CombatTracker) : Nat → Option CombatTracker
  | 0 => none
  | fuel + 1 =>
    if (getCombatantD tr (currentName tr)).active then some tr
    else
      let t' := (tr.current_turn + 1) % tr.initiative_order.length
      if t' = 0 then none else skipLoop { tr with current_turn := t' } fuel

/-- The index advance of `next_turn`:
`current_turn = (current_turn + 1) % len(order)`, bumping the round number
when the index wraps to 0. -/
def advanceIndex (tr : CombatTracker) : CombatTracker :=
  if (tr.current_turn + 1) % tr.initiative_order.length = 0 then
    { tr with current_turn := (tr.current_turn + 1) % tr.initiative_order.length,
              round_number := tr.round_number + 1 }
  else
    { tr with current_turn := (tr.current_turn + 1) % tr.initiative_order.length }

/-- The first step of `next_turn`: `update_conditions` on the combatant
whose turn is ending. -/
def tickCurrent (tr : CombatTracker) : CombatTracker :=
  setCombatant tr (currentName tr) (update_conditions (get_current_combatant tr)).2

/-- `CombatTracker.next_turn`: tick the current combatant's conditions,
advance the index (bumping the round on wrap-around), then skip inactive
combatants — ending combat if the skip search wraps back to index 0. -/
def next_turn (tr : CombatTracker) : NextTurnResult × CombatTracker :=
  if tr.active = false then (.notActive, tr)
  else
    match skipLoop (advanceIndex (tickCurrent tr))
        ((advanceIndex (tickCurrent tr)).initiative_order.length + 1) with
    | some tr4 =>
      (.turnOf (currentName tr4)
        (if (advanceIndex (tickCurrent tr)).current_turn = 0 then
          some (advanceIndex (tickCurrent tr)).round_number
         else none), tr4)
    | none => end_combat { advanceIndex (tickCurrent tr) with current_turn := 0 }

/-! ## Dice engine (`tools/dice.py`)

Dice expressions are strings matched against `^(\d+)d(\d+)([+-]\d+)?$`
(`roll_dice`) or against the prefix pattern `^(\d+)d(\d+)` (critical-hit
doubling in `Attack.make_attack`).  The regexes are embedded as
digit-span parsing over the character list. -/

/-- ASCII decimal digit test (`\d`). -/
def isDigitB (ch : Char) : Bool := '0' ≤ ch && ch ≤ '9'

/-- Value of one decimal digit character. -/
def digitVal (ch : Char) : Nat := ch.toNat - '0'.toNat

/-- Value of a digit string, as Python's `int` computes it
(most significant digit first; leading zeros allowed). -/
def digitsVal (l : List Char) : Nat :=
  l.foldl (fun a ch => 10 * a + digitVal ch) 0

/-- One decimal digit as a character. -/
def digitChar (d : Nat) : Char :=
  match d with
  | 0 => '0' | 1 => '1' | 2 => '2' | 3 => '3' | 4 => '4'
  | 5 => '5' | 6 => '6' | 7 => '7' | 8 => '8' | _ => '9'

/-- Digit-list worker with explicit fuel (any fuel above the number
itself is enough, so the recursion is structural and kernel-reducible). -/
def natDigitsAux : Nat → Nat → List Char
  | 0, _ => []
  | fuel + 1, n =>
    if n < 10 then [digitChar n]
    else natDigitsAux fuel (n / 10) ++ [digitChar (n % 10)]

/-- Decimal digit list of a natural number (Python `str`/f-string
rendering of a nonnegative `int`). -/
def natDigits (n : Nat) : List Char := natDigitsAux (n + 1) n

/-- Python's decimal rendering of a natural number, as a string. -/
def natStr (n : Nat) : String := String.mk (natDigits n)

/-- The prefix regex `^(\d+)d(\d+)` over a character list: returns the
first digit group's value, the second digit group's characters, and the
unmatched remainder. -/
def parseDiceHead (l : List Char) : Option (Nat × List Char × List Char) :=
  let a := l.takeWhile isDigitB
  let r1 := l.dropWhile isDigitB
  if a = [] then none
  else
    match r1 with
    | 'd' :: r2 =>
      let b := r2.takeWhile isDigitB
      let r3 := r2.dropWhile isDigitB
      if b = [] then none else some (digitsVal a, b, r3)
    | _ => none

/-- The full-anchored regex `^(\d+)d(\d+)([+-]\d+)?$` of `roll_dice`:
number of dice, sides, and the signed modifier (0 when the optional group
is absent). -/
def parseDice (s : String) : Option (Nat × Nat × Int) :=
  match parseDiceHead s.toList with
  | none => none
  | some (x, b, rest) =>
    match rest with
    | [] => some (x, digitsVal b, 0)
    | sign :: r2 =>
      if sign = '+' || sign = '-' then
        let m := r2.takeWhile isDigitB
        let r3 := r2.dropWhile isDigitB
        if m = [] then none
        else if r3 = [] then
          some (x, digitsVal b,
            if sign = '+' then (digitsVal m : Int) else -(digitsVal m : Int))
        else none
      else none

deriving instance DecidableEq for Except

/-- `roll_dice` (default `advantage=disadvantage=False`, which is the only
way the combat code invokes it): parse, validate, then sum one
`randint(1, sides)` draw per die plus the modifier.  `draws i` is the
`i`-th raw die value; exceptions become `Except.error`. -/
def roll_dice (s : String) (draws : Nat → Nat) : Except String Int :=
  match parseDice s with
  | none => .error "Invalid dice notation"
  | some (n, sides, modifier) =>
    if n = 0 || sides = 0 then
      .error "Number of dice and sides must be positive integers"
    else if n > 100 then
      .error "Too many dice requested. Maximum is 100."
    else
      .ok (((List.range n).map (fun i => (draws i : Int))).sum + modifier)

/-- The critical-hit rewrite in `Attack.make_attack`: when
`^(\d+)d(\d+)` matches, rebuild the expression as
`f"{2 * int(group1)}d{group2}"` (the unmatched tail is dropped);
otherwise keep the expression unchanged. -/
def critDouble (damage_dice : String) : String :=
  match parseDiceHead damage_dice.toList with
  | some (x, b, _) => natStr (2 * x) ++ "d" ++ String.mk b
  | none => damage_dice

/-! ## Attack resolution (`Attack.make_attack`) -/

/-- Result dict of `Attack.make_attack` (keys that are absent in a given
Python branch are modelled by their falsy defaults; narrative text
omitted). -/
structure AttackResult where
  success : Bool
  hit : Bool
  critical : Bool
  critical_fumble : Bool
  attack_roll : Int
  damage : Int
  defeated : Bool
  deriving Repr, DecidableEq

/-- The raw d20 kept by `make_attack`: advantage takes the higher of two
draws, disadvantage the lower, both set cancel out, and a normal attack
uses a single draw (`roll1`). -/
def naturalRoll (advantage disadvantage : Bool) (roll1 roll2 : Int) : Int :=
  if advantage && disadvantage then roll1
  else if advantage then max roll1 roll2
  else if disadvantage then min roll1 roll2
  else roll1

/-- `Attack.make_attack`.  `roll1`/`roll2` are the raw `1d20` draws;
`damageOracle dd` is the total that `roll_dice dd` returns for the damage
expression actually rolled (the dice engine's randomness, abstracted per
expression). -/
def make_attack (tr : CombatTracker) (attacker_name target_name : String)
    (attack_bonus? : Option Int) (damage_dice : String) (damage_bonus : Int)
    (advantage disadvantage : Bool)
    (roll1 roll2 : Int) (damageOracle : String → Int) :
    AttackResult × CombatTracker :=
  match findCombatant tr attacker_name with
  | none => (⟨false, false, false, false, 0, 0, false⟩, tr)
  | some attacker =>
    match findCombatant tr target_name with
    | none => (⟨false, false, false, false, 0, 0, false⟩, tr)
    | some target =>
      let attack_bonus := attack_bonus?.getD attacker.attack_bonus
      let natural := naturalRoll advantage disadvantage roll1 roll2
      let attack_roll := natural + attack_bonus
      let is_critical := natural == 20
      let is_fumble := natural == 1
      if is_fumble then
        (⟨true, false, false, true, attack_roll, 0, false⟩, tr)
      else
        let hit := is_critical || attack_roll ≥ target.ac
        if hit then
          let dd := if is_critical then critDouble damage_dice else damage_dice
          let damage := damageOracle dd + damage_bonus
          let (dres, tr') := apply_damage tr target_name damage
          (⟨true, true, is_critical, false, attack_roll, damage, dres.defeated⟩, tr')
        else
          (⟨true, false, false, false, attack_roll, 0, false⟩, tr)

/-! ## Spell resolution (`Spell.cast_damage_spell`) -/

/-- Python truthiness of the `Optional[str]` save type (`None` and the
empty string are falsy). -/
def truthyStr : Option String → Bool
  | none => false
  | some s => s ≠ ""

/-- Per-target entry of `cast_damage_spell`'s `target_results`.  `found`
is the `"hit"` key (False exactly for an unknown target name). -/
structure SpellTargetResult where
  target : String
  found : Bool
  damage : Int
  save_result : Option Bool
  defeated : Bool
  deriving Repr, DecidableEq

/-- The loop body of `Spell.cast_damage_spell` for one target: skip
unknown names; otherwise roll the save (a bare `1d20` against the DC when
a save type is given — no ability modifier), halve on a successful save
when `half_on_save`, and apply the damage.  `saveRoll` and `baseDamage`
are this iteration's two dice totals. -/
def processSpellTarget (tr : CombatTracker) (target_name : String)
    (save_type : Option String) (save_dc : Int) (half_on_save : Bool)
    (saveRoll baseDamage : Int) : SpellTargetResult × CombatTracker :=
  match findCombatant tr target_name with
  | none => (⟨target_name, false, 0, none, false⟩, tr)
  | some _ =>
    let save_result :=
      if truthyStr save_type then some (decide (saveRoll ≥ save_dc)) else none
    let damage :=
      if save_result == some true && half_on_save then baseDamage.fdiv 2
      else baseDamage
    let (dres, tr') := apply_damage tr target_name damage
    (⟨target_name, true, damage, save_result, dres.defeated⟩, tr')

/-- The target loop of `cast_damage_spell`, threading the dice stream:
`draws j` is the total of the `j`-th `roll_dice` call made during this
cast (a save `1d20` draw when a save type is given, then the damage roll,
per known target; unknown targets draw nothing). -/
def castDamageLoop (tr : CombatTracker) (targets : List String)
    (save_type : Option String) (save_dc : Int) (half_on_save : Bool)
    (draws : Nat → Int) (i : Nat) : List SpellTargetResult × CombatTracker :=
  match targets with
  | [] => ([], tr)
  | t :: rest =>
    match findCombatant tr t with
    | none =>
      let (rs, tr') :=
        castDamageLoop tr rest save_type save_dc half_on_save draws i
      (⟨t, false, 0, none, false⟩ :: rs, tr')
    | some _ =>
      let (saveRoll, baseDamage, i') :=
        if truthyStr save_type then (draws i, draws (i + 1), i + 2)
        else (0, draws i, i + 1)
      let (r, tr1) :=
        processSpellTarget tr t save_type save_dc half_on_save saveRoll baseDamage
      let (rs, tr') :=
        castDamageLoop tr1 rest save_type save_dc half_on_save draws i'
      (r :: rs, tr')

/-- `Spell.cast_damage_spell`: caster lookup, then the per-target loop.
The leading `Bool` is the `"success"` key of the returned dict. -/
def cast_damage_spell (tr : CombatTracker) (caster_name : String)
    (targets : List String) (save_type : Option String) (save_dc : Int)
    (half_on_save : Bool) (draws : Nat → Int) :
    Bool × List SpellTargetResult × CombatTracker :=
  match findCombatant tr caster_name with
  | none => (false, [], tr)
  | some _ =>
    let (rs, tr') := castDamageLoop tr targets save_type save_dc half_on_save draws 0
    (true, rs, tr')

/-! ## Initiative order

`CombatTracker.roll_initiative` sorts the `(name, roll)` pairs by the key
`(roll, is_player)` with `reverse=True`; Python's sort is stable, so it is
embedded as a stable insertion sort under the "may come first"
relation of that descending key. -/

/-- The boolean tiebreak component of the tracker's sort key
(`is_player`, with `True > False`). -/
def playerBit (c : Combatant) : Nat := if c.is_player then 1 else 0

/-- `a` may be placed before `b` under the tracker's descending
`(roll, is_player)` key. -/
def initLE (a b : String × Combatant) : Prop :=
  b.2.initiative_roll < a.2.initiative_roll ∨
    (b.2.initiative_roll = a.2.initiative_roll ∧ playerBit b.2 ≤ playerBit a.2)

instance (a b : String × Combatant) : Decidable (initLE a b) := by
  unfold initLE; infer_instance

/-- `CombatTracker.roll_initiative`: every combatant (in dict insertion
order) rolls `1d20 + initiative_mod` (`d20s i` is the `i`-th raw d20),
then the pairs are stable-sorted by descending `(roll, is_player)` and
`initiative_order` is set to the sorted names. -/
def roll_initiative (tr : CombatTracker) (d20s : Nat → Int) : CombatTracker :=
  let withRolls := (List.range tr.combatants.length).zip tr.combatants |>.map
    (fun p => (p.2.1, { p.2.2 with initiative_roll := d20s p.1 + p.2.2.initiative_mod }))
  let sorted := List.insertionSort initLE withRolls
  { tr with combatants := withRolls, initiative_order := sorted.map (fun p => p.1) }

/-! ## The dict-based duplicate implementation in `agents/combat_agent.py` -/

/-- The fields of a `CombatAgent` combatant dict that the embedded
operations read (`type` is `"player"` or `"enemy"`). -/
structure AgentCombatant where
  name : String
  ctype : String
  hp : Int
  max_hp : Int
  initiative_bonus : Int
  initiative_roll : Int
  conditions : List String
  stats : List (String × Int)
  deriving Repr, DecidableEq

/-- The agent's tiebreak component: `0 if type == "player" else 1`. -/
def agentTieBit (c : AgentCombatant) : Nat := if c.ctype == "player" then 0 else 1

/-- `a` may be placed before `b` under the agent's `reverse=True` sort of
the key `(initiative_roll, 0 if player else 1)` — descending on both
components. -/
def agentInitLE (a b : AgentCombatant) : Prop :=
  b.initiative_roll < a.initiative_roll ∨
    (b.initiative_roll = a.initiative_roll ∧ agentTieBit b ≤ agentTieBit a)

instance (a b : AgentCombatant) : Decidable (agentInitLE a b) := by
  unfold agentInitLE; infer_instance

/-- `CombatAgent._roll_initiative`: assign `1d20 + initiative_bonus` per
combatant (in dict insertion order), then sort ids by the descending
`(roll, 0 if player else 1)` key; returns the resulting order. -/
def agent_roll_initiative (combatants : List AgentCombatant)
    (d20s : Nat → Int) : List String :=
  let withRolls := (List.range combatants.length).zip combatants |>.map
    (fun p => { p.2 with initiative_roll := d20s p.1 + p.2.initiative_bonus })
  (List.insertionSort agentInitLE withRolls).map (fun c => c.name)

/-- `CombatAgent._apply_damage`: clamp hp at 0 (no active flag, no
validation — the caller resolved the id). -/
def agent_apply_damage (hp : Int) (damage : Int) : Int := max 0 (hp - damage)

/-- Ability-modifier derivation used by the agent's save logic:
`(stat_value - 10) // 2` with Python floor division. -/
def abilityModifier (score : Int) : Int := (score - 10).fdiv 2

/-- ASCII lowering of one character (`str.lower()` on the ASCII keys the
agent uses). -/
def lowerChar (ch : Char) : Char :=
  if 'A' ≤ ch && ch ≤ 'Z' then Char.ofNat (ch.toNat + 32) else ch

/-- Python `save_type.lower()` (the stat keys in play are ASCII). -/
def strLower (s : String) : String := String.mk (s.toList.map lowerChar)

/-- The save bonus of `CombatAgent._process_damage_spell`: the ability
modifier of `stats[save_type.lower()]` when present, else 0. -/
def agent_save_bonus (stats : List (String × Int)) (save_type : String) : Int :=
  match stats.find? (fun p => p.1 == strLower save_type) with
  | some p => abilityModifier p.2
  | none => 0

/-- The per-target core of `CombatAgent._process_damage_spell`: roll
`1d20 + save bonus` against the DC when a (truthy) save type is given,
halve with floor division on success when `half_on_save`, then apply the
damage with `_apply_damage`.  Returns
`(save_result, applied damage, new hp)`. -/
def agent_process_damage_target (target_hp : Int) (stats : List (String × Int))
    (save_type : Option String) (save_dc : Int) (half_on_save : Bool)
    (saveRoll base : Int) : Option Bool × Int × Int :=
  let save_result :=
    if truthyStr save_type then
      some (decide (saveRoll + agent_save_bonus stats ((save_type.getD "")) ≥ save_dc))
    else none
  let damage :=
    if save_result == some true && half_on_save then base.fdiv 2 else base
  (save_result, damage, agent_apply_damage target_hp damage)

/-- The buff branch of `CombatAgent._process_buff_spell`: append the named
condition string only when it is not already present. -/
def agent_apply_buff (conditions : List String) (buff : String) : List String :=
  if conditions.contains buff then conditions else conditions ++ [buff]

/-! ## Concrete example encounter used to instantiate the theorems -/

/-- A player combatant (as built by `CombatTracker.add_player`). -/
def alice : Combatant :=
  ⟨"Alice", 15, 10, 10, 0, 0, true, [], 0, 2, (0, 0), true⟩

/-- An enemy combatant (as built by `CombatTracker.add_enemy`). -/
def goblin : Combatant :=
  ⟨"Goblin", 13, 7, 7, 0, 0, false, [], 4, 1, (0, 0), true⟩

/-- A started two-combatant encounter: Alice first in initiative,
round 1, Alice's turn. -/
def demoTracker : CombatTracker :=
  ⟨[("Alice", alice), ("Goblin", goblin)], ["Alice", "Goblin"], 0, 1, true⟩

/-- The dict-based counterpart of `alice` in `CombatAgent.combatants`. -/
def agentAlice : AgentCombatant := ⟨"Alice", "player", 10, 10, 0, 0, [], []⟩

/-- The dict-based counterpart of `goblin` in `CombatAgent.combatants`. -/
def agentGoblin : AgentCombatant := ⟨"Goblin", "enemy", 7, 7, 0, 0, [], []⟩

/-! ## Helper lemmas: decimal digits and the dice regexes -/

theorem digitVal_digitChar {d : Nat} (h : d < 10) : digitVal (digitChar d) = d := by
  interval_cases d <;> decide

theorem isDigitB_digitChar {d : Nat} (h : d < 10) : isDigitB (digitChar d) = true := by
  interval_cases d <;> decide

theorem natDigitsAux_ne_nil (n : Nat) :
    ∀ fuel, n < fuel → natDigitsAux fuel n ≠ [] := by
  intro fuel hf
  cases fuel with
  | zero => omega
  | succ fuel =>
    rw [natDigitsAux]
    split <;> simp

theorem natDigits_ne_nil (n : Nat) : natDigits n ≠ [] :=
  natDigitsAux_ne_nil n (n + 1) (by omega)

theorem natDigitsAux_all_digits (n : Nat) :
    ∀ fuel, n < fuel → ∀ c ∈ natDigitsAux fuel n, isDigitB c = true := by
  induction n using Nat.strong_induction_on with
  | _ n ih =>
    intro fuel hf
    cases fuel with
    | zero => omega
    | succ fuel =>
      rw [natDigitsAux]
      split
      · rename_i h
        intro c hc
        simp only [List.mem_singleton] at hc
        subst hc
        exact isDigitB_digitChar h
      · rename_i h
        intro c hc
        rcases List.mem_append.mp hc with h1 | h2
        · exact ih (n / 10) (Nat.div_lt_self (by omega) (by omega)) fuel
            (by omega) c h1
        · simp only [List.mem_singleton] at h2
          subst h2
          exact isDigitB_digitChar (Nat.mod_lt _ (by omega))

theorem natDigits_all_digits (n : Nat) :
    ∀ c ∈ natDigits n, isDigitB c = true :=
  natDigitsAux_all_digits n (n + 1) (by omega)

theorem digitsVal_append_digit (l : List Char) (c : Char) :
    digitsVal (l ++ [c]) = 10 * digitsVal l + digitVal c := by
  simp [digitsVal, List.foldl_append]

theorem digitsVal_natDigitsAux (n : Nat) :
    ∀ fuel, n < fuel → digitsVal (natDigitsAux fuel n) = n := by
  induction n using Nat.strong_induction_on with
  | _ n ih =>
    intro fuel hf
    cases fuel with
    | zero => omega
    | succ fuel =>
      rw [natDigitsAux]
      split
      · rename_i h
        simp [digitsVal, digitVal_digitChar h]
      · rename_i h
        rw [digitsVal_append_digit,
          ih (n / 10) (Nat.div_lt_self (by omega) (by omega)) fuel (by omega),
          digitVal_digitChar (Nat.mod_lt _ (by omega))]
        omega

theorem digitsVal_natDigits (n : Nat) : digitsVal (natDigits n) = n :=
  digitsVal_natDigitsAux n (n + 1) (by omega)

theorem takeWhile_digits_append (a rest : List Char)
    (ha : ∀ c ∈ a, isDigitB c = true)
    (hr : ∀ c, rest.head? = some c → isDigitB c = false) :
    (a ++ rest).takeWhile isDigitB = a ∧ (a ++ rest).dropWhile isDigitB = rest := by
  induction a with
  | nil =>
    cases rest with
    | nil => simp
    | cons c r =>
      have := hr c rfl
      simp [List.takeWhile_cons, List.dropWhile_cons, this]
  | cons c a ih =>
    have hc : isDigitB c = true := ha c (by simp)
    have ih' := ih (fun x hx => ha x (by simp [hx]))
    simp [List.takeWhile_cons, List.dropWhile_cons, hc, ih'.1, ih'.2]

theorem parseDiceHead_append (x y : Nat) (rest : List Char)
    (hr : ∀ c, rest.head? = some c → isDigitB c = false) :
    parseDiceHead (natDigits x ++ 'd' :: (natDigits y ++ rest)) =
      some (x, natDigits y, rest) := by
  have h1 := takeWhile_digits_append (natDigits x) ('d' :: (natDigits y ++ rest))
    (natDigits_all_digits x) (by intro c hc; cases hc; decide)
  have h2 := takeWhile_digits_append (natDigits y) rest
    (natDigits_all_digits y) hr
  unfold parseDiceHead
  rw [h1.1, h1.2]
  simp only [natDigits_ne_nil x, if_false, h2.1, h2.2, natDigits_ne_nil y,
    digitsVal_natDigits]

theorem string_toList_dice (x y : Nat) (suffix : String) :
    (natStr x ++ "d" ++ natStr y ++ suffix).toList =
      natDigits x ++ 'd' :: (natDigits y ++ suffix.toList) := by
  simp [natStr, String.toList, String.data_append]

theorem critDouble_natStr (x y : Nat) :
    critDouble (natStr x ++ "d" ++ natStr y) = natStr (2 * x) ++ "d" ++ natStr y := by
  have h : (natStr x ++ "d" ++ natStr y).toList =
      natDigits x ++ 'd' :: (natDigits y ++ []) := by
    have := string_toList_dice x y ""
    simpa using this
  unfold critDouble
  rw [h, parseDiceHead_append x y [] (by intro c hc; cases hc)]
  rfl

theorem parseDice_plain (x y : Nat) :
    parseDice (natStr x ++ "d" ++ natStr y) = some (x, y, 0) := by
  have h : (natStr x ++ "d" ++ natStr y).toList =
      natDigits x ++ 'd' :: (natDigits y ++ []) := by
    simpa using string_toList_dice x y ""
  unfold parseDice
  rw [h, parseDiceHead_append x y [] (by intro c hc; cases hc)]
  simp [digitsVal_natDigits]

theorem parseDice_modifier (x y z : Nat) :
    parseDice (natStr x ++ "d" ++ natStr y ++ "+" ++ natStr z) =
      some (x, y, (z : Int)) := by
  have h : (natStr x ++ "d" ++ natStr y ++ "+" ++ natStr z).toList =
      natDigits x ++ 'd' :: (natDigits y ++ ('+' :: natDigits z)) := by
    simp [natStr, String.toList, String.data_append]
  have h2 : List.takeWhile isDigitB (natDigits z) = natDigits z ∧
      List.dropWhile isDigitB (natDigits z) = [] := by
    simpa using takeWhile_digits_append (natDigits z) []
      (natDigits_all_digits z) (by intro c hc; cases hc)
  unfold parseDice
  rw [h, parseDiceHead_append x y ('+' :: natDigits z)
    (by intro c hc; cases hc; decide)]
  simp [h2.1, h2.2, natDigits_ne_nil z, digitsVal_natDigits]

/-! ## Helper lemmas: the combatant dict and the turn machine -/

theorem find?_set_ne (l : List (String × Combatant)) (n m : String)
    (c : Combatant) (h : m ≠ n) :
    (l.map (fun p => if p.1 == n then (p.1, c) else p)).find? (fun p => p.1 == m) =
      l.find? (fun p => p.1 == m) := by
  induction l with
  | nil => rfl
  | cons p l ih =>
    simp only [List.map_cons]
    by_cases h1 : p.1 = n
    · have hm : (p.1 == m) = false := by
        simp only [beq_eq_false_iff_ne, ne_eq]
        intro hm; exact h (hm ▸ h1)
      rw [if_pos (by simpa using h1)]
      simp only [List.find?_cons, hm]
      exact ih
    · rw [if_neg (by simpa using h1)]
      by_cases h2 : p.1 = m
      · simp only [List.find?_cons, show (p.1 == m) = true by simpa using h2]
      · simp only [List.find?_cons, show (p.1 == m) = false by simpa using h2]
        exact ih

theorem findCombatant_setCombatant_ne (tr : CombatTracker) (n m : String)
    (c : Combatant) (h : m ≠ n) :
    findCombatant (setCombatant tr n c) m = findCombatant tr m := by
  simp only [findCombatant, setCombatant]
  rw [find?_set_ne _ _ _ _ h]

theorem find?_set_eq (l : List (String × Combatant)) (n : String)
    (c : Combatant) (h : (l.find? (fun p => p.1 == n)).isSome) :
    ((l.map (fun p => if p.1 == n then (p.1, c) else p)).find?
        (fun p => p.1 == n)).map (fun p => p.2) = some c := by
  induction l with
  | nil => simp at h
  | cons p l ih =>
    simp only [List.map_cons]
    by_cases h1 : p.1 = n
    · rw [if_pos (by simpa using h1)]
      simp only [List.find?_cons, show (p.1 == n) = true by simpa using h1]
      rfl
    · rw [if_neg (by simpa using h1)]
      simp only [List.find?_cons, show (p.1 == n) = false by simpa using h1] at h ⊢
      exact ih h

theorem findCombatant_setCombatant_eq (tr : CombatTracker) (n : String)
    (c : Combatant) (h : (findCombatant tr n).isSome) :
    findCombatant (setCombatant tr n c) n = some c := by
  have h' : ((tr.combatants.find? (fun p => p.1 == n)).isSome) := by
    simpa [findCombatant] using h
  simpa [findCombatant, setCombatant] using find?_set_eq tr.combatants n c h'

theorem skipLoop_some (fuel : Nat) (tr tr' : CombatTracker)
    (h : skipLoop tr fuel = some tr') :
    (getCombatantD tr' (currentName tr')).active = true ∧
      tr'.combatants = tr.combatants ∧
      tr'.initiative_order = tr.initiative_order ∧
      tr'.active = tr.active ∧
      tr'.round_number = tr.round_number := by
  induction fuel generalizing tr with
  | zero => simp [skipLoop] at h
  | succ fuel ih =>
    rw [skipLoop] at h
    by_cases ha : (getCombatantD tr (currentName tr)).active = true
    · simp only [ha, if_true] at h
      cases h
      exact ⟨ha, rfl, rfl, rfl, rfl⟩
    · simp only [ha, if_false, Bool.false_eq_true] at h
      by_cases hz : (tr.current_turn + 1) % tr.initiative_order.length = 0
      · simp [hz] at h
      · simp only [hz, if_false] at h
        have res := ih _ h
        exact ⟨res.1, res.2.1, res.2.2.1, res.2.2.2.1, res.2.2.2.2⟩

theorem advanceIndex_combatants (tr : CombatTracker) :
    (advanceIndex tr).combatants = tr.combatants := by
  unfold advanceIndex
  split <;> rfl

theorem end_combat_snd_combatants (tr : CombatTracker) :
    (end_combat tr).2.combatants = tr.combatants := by
  unfold end_combat
  split <;> rfl

theorem end_combat_fst_ne_turnOf (tr : CombatTracker) (name : String)
    (r : Option Int) : (end_combat tr).1 ≠ .turnOf name r := by
  unfold end_combat
  split <;> simp

theorem tickCurrent_combatants_ne (tr : CombatTracker) (m : String)
    (h : m ≠ currentName tr) :
    findCombatant (tickCurrent tr) m = findCombatant tr m :=
  findCombatant_setCombatant_ne tr (currentName tr) m _ h

theorem next_turn_turnOf (tr tr' : CombatTracker) (name : String)
    (r : Option Int) (h : next_turn tr = (.turnOf name r, tr')) :
    (get_current_combatant tr').active = true ∧
      tr'.combatants = (tickCurrent tr).combatants := by
  unfold next_turn at h
  by_cases hact : tr.active = false
  · rw [if_pos hact] at h
    have h1 : ((NextTurnResult.notActive : NextTurnResult), tr) =
        (.turnOf name r, tr') := h
    simp at h1
  · rw [if_neg hact] at h
    rcases hskip : skipLoop (advanceIndex (tickCurrent tr))
        ((advanceIndex (tickCurrent tr)).initiative_order.length + 1) with _ | tr4
    · rw [hskip] at h
      have h1 : end_combat { advanceIndex (tickCurrent tr) with current_turn := 0 } =
          (.turnOf name r, tr') := h
      exact absurd (congrArg Prod.fst h1)
        (end_combat_fst_ne_turnOf _ name r)
    · rw [hskip] at h
      have h1 : ((NextTurnResult.turnOf (currentName tr4)
          (if (advanceIndex (tickCurrent tr)).current_turn = 0 then
            some (advanceIndex (tickCurrent tr)).round_number
           else none) : NextTurnResult), tr4) = (.turnOf name r, tr') := h
      have hsome := skipLoop_some _ _ _ hskip
      have h2 : tr4 = tr' := congrArg Prod.snd h1
      subst h2
      refine ⟨hsome.1, ?_⟩
      rw [hsome.2.1, advanceIndex_combatants]

theorem next_turn_snd_combatants (tr : CombatTracker) :
    (next_turn tr).2.combatants =
      if tr.active = false then tr.combatants else (tickCurrent tr).combatants := by
  unfold next_turn
  by_cases hact : tr.active = false
  · rw [if_pos hact, if_pos hact]
  · rw [if_neg hact, if_neg hact]
    rcases hskip : skipLoop (advanceIndex (tickCurrent tr))
        ((advanceIndex (tickCurrent tr)).initiative_order.length + 1) with _ | tr4
    · show (end_combat { advanceIndex (tickCurrent tr) with
        current_turn := 0 }).2.combatants = _
      rw [end_combat_snd_combatants]
      exact advanceIndex_combatants _
    · show tr4.combatants = _
      rw [(skipLoop_some _ _ _ hskip).2.1, advanceIndex_combatants]

theorem findCombatant_congr (tr1 tr2 : CombatTracker)
    (h : tr1.combatants = tr2.combatants) (m : String) :
    findCombatant tr1 m = findCombatant tr2 m := by
  unfold findCombatant
  rw [h]

theorem next_turn_other_unchanged (tr : CombatTracker) (m : String)
    (hm : m ≠ currentName tr) :
    findCombatant (next_turn tr).2 m = findCombatant tr m := by
  have hcomb := next_turn_snd_combatants tr
  by_cases hact : tr.active = false
  · rw [if_pos hact] at hcomb
    unfold findCombatant
    rw [hcomb]
  · rw [if_neg hact] at hcomb
    calc findCombatant (next_turn tr).2 m
        = findCombatant (tickCurrent tr) m := by
          unfold findCombatant; rw [hcomb]
      _ = findCombatant tr m := tickCurrent_combatants_ne tr m hm

theorem next_turn_ticks_current (tr : CombatTracker)
    (hact : tr.active = true)
    (hsome : (findCombatant tr (currentName tr)).isSome) :
    findCombatant (next_turn tr).2 (currentName tr) =
      some (update_conditions (get_current_combatant tr)).2 := by
  have hcomb := next_turn_snd_combatants tr
  rw [if_neg (by simp [hact])] at hcomb
  calc findCombatant (next_turn tr).2 (currentName tr)
      = findCombatant (tickCurrent tr) (currentName tr) := by
        unfold findCombatant; rw [hcomb]
    _ = some (update_conditions (get_current_combatant tr)).2 :=
        findCombatant_setCombatant_eq tr (currentName tr) _ hsome

/-! ## Helper lemmas: condition ticking -/

theorem tickConditions_append (l1 l2 : List Condition) :
    tickConditions (l1 ++ l2) = tickConditions l1 ++ tickConditions l2 := by
  simp [tickConditions, List.filter_append]

theorem tickListN_nil (k : Nat) : tickListN k [] = [] := by
  induction k with
  | zero => rfl
  | succ k ih => simpa [tickListN, tickConditions] using ih

theorem tickListN_append (k : Nat) (l1 l2 : List Condition) :
    tickListN k (l1 ++ l2) = tickListN k l1 ++ tickListN k l2 := by
  induction k generalizing l1 l2 with
  | zero => rfl
  | succ k ih => simp [tickListN, tickConditions_append, ih]

theorem tickCombatantN_eq (k : Nat) (c : Combatant) :
    tickCombatantN k c = { c with conditions := tickListN k c.conditions } := by
  induction k generalizing c with
  | zero => rfl
  | succ k ih =>
    rw [tickCombatantN, tickListN, ih]
    rfl

theorem tickConditions_single_pos (kind : String) (n : Int) (hn : 0 < n) :
    tickConditions [⟨kind, n⟩] =
      if n = 1 then [] else [⟨kind, n - 1⟩] := by
  by_cases h1 : n = 1
  · simp [tickConditions, decCond, h1]
  · have : (n - 1 != 0) = true := by
      simp only [bne_iff_ne, ne_eq]
      omega
    simp [tickConditions, decCond, h1, hn, this]

theorem tickListN_single_pos (kind : String) (n : Int) (hn : 0 < n) (k : Nat) :
    tickListN k [⟨kind, n⟩] =
      if (k : Int) < n then [⟨kind, n - k⟩] else [] := by
  induction k generalizing n with
  | zero =>
    simp [tickListN, hn]
  | succ k ih =>
    rw [tickListN, tickConditions_single_pos kind n hn]
    by_cases h1 : n = 1
    · subst h1
      rw [if_pos rfl, tickListN_nil]
      rw [if_neg (by push_cast; omega)]
    · rw [if_neg h1, ih (n - 1) (by omega)]
      by_cases h2 : (k : Int) < n - 1
      · rw [if_pos h2, if_pos (by push_cast; omega)]
        congr 1
        push_cast
        ring_nf
      · rw [if_neg h2, if_neg (by push_cast; omega)]

theorem tickListN_single_neg (kind : String) (d : Int) (hd : d < 0) (k : Nat) :
    tickListN k [⟨kind, d⟩] = [⟨kind, d⟩] := by
  induction k with
  | zero => rfl
  | succ k ih =>
    have h0 : (d != 0) = true := by
      simp only [bne_iff_ne, ne_eq]
      omega
    rw [tickListN]
    have : tickConditions [⟨kind, d⟩] = [⟨kind, d⟩] := by
      simp [tickConditions, decCond, h0, show ¬ d > 0 by omega]
    rw [this, ih]

/-! ## Claims -/

/-- C1: for every combatant with `0 ≤ hp ≤ max_hp` and every nonnegative
amount, `take_damage` keeps `0 ≤ hp ≤ max_hp` (clamping at 0) and sets
`active = false` exactly when the resulting hp is 0 (otherwise `active` is
untouched), and `heal` keeps `0 ≤ hp ≤ max_hp` (clamping at `max_hp`). -/
theorem claim_C1_hp_bounds (c : Combatant) (amount : Int)
    (hlo : 0 ≤ c.hp) (hhi : c.hp ≤ c.max_hp) (hamt : 0 ≤ amount) :
    (0 ≤ (take_damage c amount).hp ∧ (take_damage c amount).hp ≤ c.max_hp) ∧
    ((take_damage c amount).active = false ↔
      ((take_damage c amount).hp = 0 ∨ c.active = false)) ∧
    (0 ≤ (heal c amount).hp ∧ (heal c amount).hp ≤ c.max_hp) := by
  have h1 : (take_damage c amount).hp = max 0 (c.hp - amount) := rfl
  have h2 : (take_damage c amount).active =
      (if max 0 (c.hp - amount) = 0 then false else c.active) := rfl
  have h3 : (heal c amount).hp = min c.max_hp (c.hp + amount) := rfl
  refine ⟨⟨?_, ?_⟩, ?_, ?_, ?_⟩
  · rw [h1]; omega
  · rw [h1]; omega
  · rw [h1, h2]
    by_cases h0 : max 0 (c.hp - amount) = 0
    · simp [h0]
    · simp [h0]
  · rw [h3]; omega
  · rw [h3]; omega

theorem claim_C1_witness :
    (0 ≤ (take_damage alice 3).hp ∧ (take_damage alice 3).hp ≤ alice.max_hp) ∧
    ((take_damage alice 3).active = false ↔
      ((take_damage alice 3).hp = 0 ∨ alice.active = false)) ∧
    (0 ≤ (heal alice 3).hp ∧ (heal alice 3).hp ≤ alice.max_hp) :=
  claim_C1_hp_bounds alice 3 (by decide) (by decide) (by decide)

/-- C5 counterexample: `Combatant.add_condition` appends unconditionally,
so two calls with the same kind leave two "bless" conditions — the
claimed "at most one condition of each kind" is false. -/
theorem claim_C5_counterexample :
    ¬ countKind (add_condition (add_condition alice "bless" 2) "bless" 2)
        "bless" ≤ 1 := by decide

/-- C5 amended: `Combatant.add_condition` never replaces: it appends a new
entry even when the kind is already present, so each call increases the
count of that kind by one (identical kinds stack).  Only the agent's buff
path (`CombatAgent._process_buff_spell`) skips the append when the condition
string is already present. -/
theorem claim_C5_amended (c : Combatant) (kind : String) (d : Int)
    (conds : List String) (buff : String)
    (hbuff : conds.contains buff = true) :
    (add_condition c kind d).conditions = c.conditions ++ [⟨kind, d⟩] ∧
    countKind (add_condition c kind d) kind = countKind c kind + 1 ∧
    agent_apply_buff conds buff = conds := by
  refine ⟨rfl, ?_, ?_⟩
  · simp [countKind, add_condition, List.filter_append]
  · unfold agent_apply_buff
    rw [if_pos hbuff]

theorem claim_C5_amended_witness :
    (add_condition alice "bless" 2).conditions =
      alice.conditions ++ [⟨"bless", 2⟩] ∧
    countKind (add_condition alice "bless" 2) "bless" =
      countKind alice "bless" + 1 ∧
    agent_apply_buff ["blessed"] "blessed" = ["blessed"] :=
  claim_C5_amended alice "bless" 2 ["blessed"] "blessed" (by decide)

/-- C7: a condition of duration `n > 0` ticks down by exactly 1 at each of
its bearer's turn-ends, surviving the first `n - 1` ticks (with duration
`n - k` after `k` ticks) and disappearing exactly at the `n`-th; an
indefinite (negative) duration never expires.  At the tracker level,
`next_turn` ticks only the current combatant: every other combatant is
unchanged, and the current one is replaced by its `update_conditions`
image. -/
theorem claim_C7_condition_expiry (c : Combatant) (kind : String)
    (n d : Int) (hn : 0 < n) (hd : d < 0) (k : Nat)
    (tr : CombatTracker) (m : String) (hm : m ≠ currentName tr)
    (hact : tr.active = true)
    (hsome : (findCombatant tr (currentName tr)).isSome) :
    ((tickCombatantN k (add_condition c kind n)).conditions =
      (tickCombatantN k c).conditions ++
        (if (k : Int) < n then [⟨kind, n - k⟩] else [])) ∧
    ((tickCombatantN k (add_condition c kind d)).conditions =
      (tickCombatantN k c).conditions ++ [⟨kind, d⟩]) ∧
    findCombatant (next_turn tr).2 m = findCombatant tr m ∧
    findCombatant (next_turn tr).2 (currentName tr) =
      some (update_conditions (get_current_combatant tr)).2 := by
  refine ⟨?_, ?_, next_turn_other_unchanged tr m hm,
    next_turn_ticks_current tr hact hsome⟩
  · rw [tickCombatantN_eq, tickCombatantN_eq]
    show tickListN k (c.conditions ++ [⟨kind, n⟩]) = _
    rw [tickListN_append, tickListN_single_pos kind n hn k]
  · rw [tickCombatantN_eq, tickCombatantN_eq]
    show tickListN k (c.conditions ++ [⟨kind, d⟩]) = _
    rw [tickListN_append, tickListN_single_neg kind d hd k]

theorem claim_C7_witness :
    ((tickCombatantN 1 (add_condition alice "stunned" 2)).conditions =
      (tickCombatantN 1 alice).conditions ++
        (if ((1 : Nat) : Int) < 2 then [⟨"stunned", 2 - (1 : Nat)⟩] else [])) ∧
    ((tickCombatantN 1 (add_condition alice "stunned" (-1))).conditions =
      (tickCombatantN 1 alice).conditions ++ [⟨"stunned", -1⟩]) ∧
    findCombatant (next_turn demoTracker).2 "Goblin" =
      findCombatant demoTracker "Goblin" ∧
    findCombatant (next_turn demoTracker).2 (currentName demoTracker) =
      some (update_conditions (get_current_combatant demoTracker)).2 :=
  claim_C7_condition_expiry alice "stunned" 2 (-1) (by decide) (by decide) 1
    demoTracker "Goblin" (by decide) (by decide) (by decide)

/-- C2 counterexample: in an active encounter it is Alice's turn; applying
lethal damage to Alice via `CombatTracker.apply_damage` leaves the encounter
active with the turn index still pointing at Alice, who is now inactive —
`apply_damage` performs no skip, so control returns to the caller with the
current-turn combatant inactive. -/
theorem claim_C2_counterexample :
    (apply_damage demoTracker "Alice" 10).2.active = true ∧
    currentName (apply_damage demoTracker "Alice" 10).2 = "Alice" ∧
    (get_current_combatant (apply_damage demoTracker "Alice" 10).2).active =
      false := by decide

/-- C2 amended: the invariant holds only across `next_turn`: whenever
`next_turn` yields a turn (rather than reporting inactivity or ending
combat), the combatant at the current-turn index is active, because the
skip loop only stops on an active combatant.  `apply_damage` itself never
moves the index, so damage that deactivates the current-turn combatant
leaves an inactive combatant at the index until `next_turn` runs. -/
theorem claim_C2_amended (tr tr2 : CombatTracker) (name : String)
    (r : Option Int) (h : next_turn tr = (.turnOf name r, tr2)) :
    (get_current_combatant tr2).active = true :=
  (next_turn_turnOf tr tr2 name r h).1

theorem claim_C2_amended_witness :
    (get_current_combatant (next_turn demoTracker).2).active = true :=
  claim_C2_amended demoTracker (next_turn demoTracker).2 "Goblin" none
    (by decide)

/-- C9 counterexample: `Spell.cast_damage_spell` with target list
`["Ghost", "Goblin"]`, where "Ghost" is unknown, reports the unknown
target in its per-target results (and `findCombatant` confirms "Ghost"
does not exist) yet still damages "Goblin" from 7 hp down to 1 and returns
overall success — the encounter is mutated even though the action
references an unknown target. -/
theorem claim_C9_counterexample :
    findCombatant demoTracker "Ghost" = none ∧
    (findCombatant demoTracker "Goblin").map (fun c => c.hp) = some 7 ∧
    (cast_damage_spell demoTracker "Alice" ["Ghost", "Goblin"] none 15 true
      (fun _ => 6)).1 = true ∧
    ((cast_damage_spell demoTracker "Alice" ["Ghost", "Goblin"] none 15 true
      (fun _ => 6)).2.1.head?).map (fun r => r.found) = some false ∧
    (findCombatant (cast_damage_spell demoTracker "Alice" ["Ghost", "Goblin"]
        none 15 true (fun _ => 6)).2.2 "Goblin").map (fun c => c.hp) =
      some 1 := by decide

/-- C9 amended: validation-before-mutation holds only per lookup, not per
action: `apply_damage` and `apply_healing` on an unknown target return an
error dict with the tracker unchanged, and `cast_damage_spell` with an
unknown caster returns an error with the tracker unchanged; but unknown
entries in a spell's target list are skipped individually while the
remaining targets are still mutated. -/
theorem claim_C9_amended (tr : CombatTracker) (t c : String) (amt : Int)
    (save_type : Option String) (dc : Int) (half : Bool)
    (draws : Nat → Int) (targets : List String)
    (ht : findCombatant tr t = none) (hc : findCombatant tr c = none) :
    apply_damage tr t amt = (⟨false, 0, 0, false, false⟩, tr) ∧
    apply_healing tr t amt = (⟨false, 0, 0, false, false⟩, tr) ∧
    cast_damage_spell tr c targets save_type dc half draws =
      (false, [], tr) := by
  unfold apply_damage apply_healing cast_damage_spell
  rw [ht, hc]
  exact ⟨rfl, rfl, rfl⟩

theorem claim_C9_amended_witness :
    apply_damage demoTracker "Ghost" 4 =
      (⟨false, 0, 0, false, false⟩, demoTracker) ∧
    apply_healing demoTracker "Ghost" 4 =
      (⟨false, 0, 0, false, false⟩, demoTracker) ∧
    cast_damage_spell demoTracker "Nobody" ["Goblin"] none 15 true
      (fun _ => 6) = (false, [], demoTracker) :=
  claim_C9_amended demoTracker "Ghost" "Nobody" 4 none 15 true (fun _ => 6)
    ["Goblin"] (by decide) (by decide)

/-- C3: for every attack resolved by `Attack.make_attack` (any attack
bonus, any target AC, any advantage state), with `n` the natural d20 kept
by the roll: `n = 1` is an automatic miss that deals no damage and leaves
the tracker untouched; `n = 20` is an automatic hit; otherwise the attack
hits exactly when `n + attack_bonus ≥ target.ac`. -/
theorem claim_C3_hit_rules (tr : CombatTracker) (an tn : String)
    (b? : Option Int) (dd : String) (db : Int) (adv dis : Bool)
    (r1 r2 : Int) (oracle : String → Int) (attacker target : Combatant)
    (ha : findCombatant tr an = some attacker)
    (ht : findCombatant tr tn = some target) :
    (naturalRoll adv dis r1 r2 = 1 →
      (make_attack tr an tn b? dd db adv dis r1 r2 oracle).1.hit = false ∧
      (make_attack tr an tn b? dd db adv dis r1 r2 oracle).1.damage = 0 ∧
      (make_attack tr an tn b? dd db adv dis r1 r2 oracle).2 = tr) ∧
    (naturalRoll adv dis r1 r2 = 20 →
      (make_attack tr an tn b? dd db adv dis r1 r2 oracle).1.hit = true) ∧
    (naturalRoll adv dis r1 r2 ≠ 1 → naturalRoll adv dis r1 r2 ≠ 20 →
      ((make_attack tr an tn b? dd db adv dis r1 r2 oracle).1.hit = true ↔
        naturalRoll adv dis r1 r2 + b?.getD attacker.attack_bonus ≥
          target.ac)) := by
  simp only [make_attack, ha, ht]
  refine ⟨?_, ?_, ?_⟩
  · intro h1
    simp [h1]
  · intro h20
    have e1 : ((20 : Int) == 1) = false := by decide
    simp [h20, e1]
  · intro h1 h20
    have e1 : (naturalRoll adv dis r1 r2 == 1) = false := by
      simpa using h1
    have e20 : (naturalRoll adv dis r1 r2 == 20) = false := by
      simpa using h20
    simp only [e1, e20, Bool.false_or, if_false, Bool.false_eq_true]
    by_cases hge : naturalRoll adv dis r1 r2 + b?.getD attacker.attack_bonus ≥
        target.ac
    · simp [hge]
    · simp [hge]

theorem claim_C3_witness :
    naturalRoll false false 1 0 = 1 ∧
    (make_attack demoTracker "Goblin" "Alice" none "1d6" 2 false false 1 0
      (fun _ => 100)).1.hit = false ∧
    (make_attack demoTracker "Goblin" "Alice" none "1d6" 2 false false 1 0
      (fun _ => 100)).2 = demoTracker :=
  ⟨by decide,
    ((claim_C3_hit_rules demoTracker "Goblin" "Alice" none "1d6" 2 false false
      1 0 (fun _ => 100) goblin alice (by decide) (by decide)).1
        (by decide)).1,
    ((claim_C3_hit_rules demoTracker "Goblin" "Alice" none "1d6" 2 false false
      1 0 (fun _ => 100) goblin alice (by decide) (by decide)).1
        (by decide)).2.2⟩

/-- C4: on a critical hit (natural 20) `make_attack` rolls the rewritten
expression `critDouble damage_dice` — for an "XdY" expression exactly
"2XdY" — and adds the unchanged flat bonus; the rolled total is never
multiplied.  On a non-critical hit the original expression is rolled
unchanged, plus the same flat bonus. -/
theorem claim_C4_crit_doubles_dice (tr : CombatTracker) (an tn : String)
    (b? : Option Int) (dd : String) (db : Int) (adv dis : Bool)
    (r1 r2 : Int) (oracle : String → Int) (attacker target : Combatant)
    (x y : Nat)
    (ha : findCombatant tr an = some attacker)
    (ht : findCombatant tr tn = some target) :
    (naturalRoll adv dis r1 r2 = 20 →
      (make_attack tr an tn b? dd db adv dis r1 r2 oracle).1.damage =
        oracle (critDouble dd) + db) ∧
    critDouble (natStr x ++ "d" ++ natStr y) =
      natStr (2 * x) ++ "d" ++ natStr y ∧
    (naturalRoll adv dis r1 r2 ≠ 1 → naturalRoll adv dis r1 r2 ≠ 20 →
      (make_attack tr an tn b? dd db adv dis r1 r2 oracle).1.hit = true →
      (make_attack tr an tn b? dd db adv dis r1 r2 oracle).1.damage =
        oracle dd + db) := by
  simp only [make_attack, ha, ht]
  refine ⟨?_, critDouble_natStr x y, ?_⟩
  · intro h20
    have e1 : ((20 : Int) == 1) = false := by decide
    simp [h20, e1, apply_damage]
  · intro h1 h20
    have e1 : (naturalRoll adv dis r1 r2 == 1) = false := by
      simpa using h1
    have e20 : (naturalRoll adv dis r1 r2 == 20) = false := by
      simpa using h20
    simp only [e1, e20, Bool.false_or, if_false, Bool.false_eq_true]
    by_cases hge : target.ac ≤ naturalRoll adv dis r1 r2 +
        b?.getD attacker.attack_bonus
    · simp [hge, apply_damage]
    · simp [hge]

theorem claim_C4_witness :
    naturalRoll false false 20 0 = 20 ∧
    critDouble "1d6" = "2d6" ∧
    (make_attack demoTracker "Goblin" "Alice" none "1d6" 2 false false 20 0
      (fun s => if s = "2d6" then 7 else 100)).1.damage =
      (fun s => if s = "2d6" then 7 else 100) (critDouble "1d6") + 2 :=
  ⟨by decide, by decide,
    (claim_C4_crit_doubles_dice demoTracker "Goblin" "Alice" none "1d6" 2
      false false 20 0 (fun s => if s = "2d6" then 7 else 100) goblin alice
      1 6 (by decide) (by decide)).1 (by decide)⟩

/-- C8 counterexample: `Spell.cast_damage_spell` at DC 15 with a raw save
roll of 14 against the Goblin (dexterity modifier 1): the claim's saving
throw `1d20 + modifier = 15 ≥ 15` would succeed and halve the damage to 3,
but the code compares the bare d20 to the DC, records a failed save, and
applies the full 6 damage. -/
theorem claim_C8_counterexample :
    goblin.dex_mod = 1 ∧ (14 : Int) + goblin.dex_mod ≥ 15 ∧
    (6 : Int).fdiv 2 = 3 ∧
    (cast_damage_spell demoTracker "Alice" ["Goblin"] (some "dexterity") 15
      true (fun i => if i = 0 then 14 else 6)).2.1 =
      [⟨"Goblin", true, 6, some false, false⟩] := by decide

/-- C8 amended: `Spell.cast_damage_spell` compares the bare `1d20` roll to
the DC — no ability modifier is added — while the agent's
`_process_damage_spell` adds `(score - 10) // 2` (Python floor division)
from the target's stats, with bonus 0 when the stat is absent; in both, a
successful save with `half_on_save` applies exactly `base // 2` (floor)
and otherwise the full base damage, and with no save type the full base
damage applies unconditionally (no save is rolled). -/
theorem claim_C8_saving_throws (tr : CombatTracker) (t st : String)
    (dc : Int) (half : Bool) (saveRoll base : Int) (target : Combatant)
    (hp : Int) (stats stats2 : List (String × Int)) (k : String) (score : Int)
    (hst : st ≠ "") (ht : findCombatant tr t = some target)
    (hscore : stats.find? (fun p => p.1 == strLower st) = some (k, score))
    (hmiss : stats2.find? (fun p => p.1 == strLower st) = none) :
    ((processSpellTarget tr t (some st) dc half saveRoll base).1.save_result =
      some (decide (saveRoll ≥ dc))) ∧
    ((processSpellTarget tr t (some st) dc half saveRoll base).1.damage =
      if saveRoll ≥ dc ∧ half = true then base.fdiv 2 else base) ∧
    agent_save_bonus stats st = (score - 10).fdiv 2 ∧
    ((agent_process_damage_target hp stats (some st) dc half saveRoll
        base).1 =
      some (decide (saveRoll + (score - 10).fdiv 2 ≥ dc))) ∧
    ((agent_process_damage_target hp stats (some st) dc half saveRoll
        base).2.1 =
      if saveRoll + (score - 10).fdiv 2 ≥ dc ∧ half = true then base.fdiv 2
      else base) ∧
    ((processSpellTarget tr t none dc half saveRoll base).1.save_result =
      none) ∧
    ((processSpellTarget tr t none dc half saveRoll base).1.damage = base) ∧
    ((agent_process_damage_target hp stats none dc half saveRoll base).1 =
      none) ∧
    ((agent_process_damage_target hp stats none dc half saveRoll base).2.1 =
      base) ∧
    agent_save_bonus stats2 st = 0 ∧
    ((agent_process_damage_target hp stats2 (some st) dc half saveRoll
        base).1 = some (decide (saveRoll ≥ dc))) := by
  have htruthy : truthyStr (some st) = true := by
    simp [truthyStr, hst]
  have hbonus : agent_save_bonus stats st = (score - 10).fdiv 2 := by
    unfold agent_save_bonus
    rw [hscore]
    rfl
  have hbonus0 : agent_save_bonus stats2 st = 0 := by
    unfold agent_save_bonus
    rw [hmiss]
  refine ⟨?_, ?_, hbonus, ?_, ?_, ?_, ?_, ?_, ?_, hbonus0, ?_⟩
  · simp [processSpellTarget, ht, htruthy]
  · simp only [processSpellTarget, ht, htruthy, if_true]
    by_cases hs : saveRoll ≥ dc
    · by_cases hh : half = true
      · simp [hs, hh]
      · simp [hs, hh]
    · simp [hs]
  · simp [agent_process_damage_target, htruthy, hbonus]
  · by_cases hs : saveRoll + (score - 10).fdiv 2 ≥ dc
    · by_cases hh : half = true
      · simp [agent_process_damage_target, htruthy, hbonus, hs, hh]
      · simp [agent_process_damage_target, htruthy, hbonus, hs, hh]
    · simp [agent_process_damage_target, htruthy, hbonus, hs]
  · simp [processSpellTarget, ht, truthyStr]
  · simp [processSpellTarget, ht, truthyStr]
  · simp [agent_process_damage_target, truthyStr]
  · simp [agent_process_damage_target, truthyStr]
  · simp [agent_process_damage_target, htruthy, hbonus0]

theorem claim_C8_witness :
    ((processSpellTarget demoTracker "Goblin" (some "dexterity") 15 true 14
        6).1.save_result = some (decide ((14 : Int) ≥ 15))) ∧
    ((processSpellTarget demoTracker "Goblin" (some "dexterity") 15 true 14
        6).1.damage =
      if (14 : Int) ≥ 15 ∧ true = true then (6 : Int).fdiv 2 else 6) ∧
    agent_save_bonus [("dexterity", 14)] "dexterity" =
      ((14 : Int) - 10).fdiv 2 ∧
    ((agent_process_damage_target 7 [("dexterity", 14)] (some "dexterity") 15
        true 14 6).1 =
      some (decide ((14 : Int) + ((14 : Int) - 10).fdiv 2 ≥ 15))) ∧
    ((agent_process_damage_target 7 [("dexterity", 14)] (some "dexterity") 15
        true 14 6).2.1 =
      if (14 : Int) + ((14 : Int) - 10).fdiv 2 ≥ 15 ∧ true = true then
        (6 : Int).fdiv 2
      else 6) ∧
    ((processSpellTarget demoTracker "Goblin" none 15 true 14
        6).1.save_result = none) ∧
    ((processSpellTarget demoTracker "Goblin" none 15 true 14 6).1.damage =
      6) ∧
    ((agent_process_damage_target 7 [("dexterity", 14)] none 15 true 14
        6).1 = none) ∧
    ((agent_process_damage_target 7 [("dexterity", 14)] none 15 true 14
        6).2.1 = 6) ∧
    agent_save_bonus [] "dexterity" = 0 ∧
    ((agent_process_damage_target 7 [] (some "dexterity") 15 true 14 6).1 =
      some (decide ((14 : Int) ≥ 15))) :=
  claim_C8_saving_throws demoTracker "Goblin" "dexterity" 15 true 14 6 goblin
    7 [("dexterity", 14)] [] "dexterity" 14 (by decide) (by decide)
    (by decide) (by decide)

/-- C10: `roll_dice` validates a hard cap of 100 dice that the spec's rules
(`X ≥ 1`, `Y ≥ 1`) do not impose: for any die count above 100 (with or
without a `+Z` modifier) it raises "Too many dice requested", while any
count from 1 to 100 rolls normally, returning the sum of the raw draws
plus the modifier. -/
theorem claim_C10_dice_cap (x y z : Nat) (draws : Nat → Nat)
    (hy : 1 ≤ y) :
    (100 < x →
      roll_dice (natStr x ++ "d" ++ natStr y) draws =
        .error "Too many dice requested. Maximum is 100." ∧
      roll_dice (natStr x ++ "d" ++ natStr y ++ "+" ++ natStr z) draws =
        .error "Too many dice requested. Maximum is 100.") ∧
    (1 ≤ x → x ≤ 100 →
      roll_dice (natStr x ++ "d" ++ natStr y) draws =
        .ok (((List.range x).map (fun i => (draws i : Int))).sum) ∧
      roll_dice (natStr x ++ "d" ++ natStr y ++ "+" ++ natStr z) draws =
        .ok (((List.range x).map (fun i => (draws i : Int))).sum + z)) := by
  constructor
  · intro hx
    constructor
    · unfold roll_dice
      rw [parseDice_plain]
      dsimp only
      rw [if_neg (by simp only [Bool.or_eq_true, decide_eq_true_eq]; omega),
        if_pos (by omega)]
    · unfold roll_dice
      rw [parseDice_modifier]
      dsimp only
      rw [if_neg (by simp only [Bool.or_eq_true, decide_eq_true_eq]; omega),
        if_pos (by omega)]
  · intro hx1 hx100
    constructor
    · unfold roll_dice
      rw [parseDice_plain]
      dsimp only
      rw [if_neg (by simp only [Bool.or_eq_true, decide_eq_true_eq]; omega),
        if_neg (by omega), add_zero]
    · unfold roll_dice
      rw [parseDice_modifier]
      dsimp only
      rw [if_neg (by simp only [Bool.or_eq_true, decide_eq_true_eq]; omega),
        if_neg (by omega)]

theorem claim_C10_witness :
    roll_dice "101d6" (fun _ => 3) =
      .error "Too many dice requested. Maximum is 100." ∧
    roll_dice "2d6+3" (fun _ => 4) = .ok 11 := by
  have e1 : natStr 101 ++ "d" ++ natStr 6 = "101d6" := by decide
  have e2 : natStr 2 ++ "d" ++ natStr 6 ++ "+" ++ natStr 3 = "2d6+3" := by
    decide
  constructor
  · rw [← e1]
    exact ((claim_C10_dice_cap 101 6 0 (fun _ => 3) (by decide)).1
      (by decide)).1
  · rw [← e2]
    rw [((claim_C10_dice_cap 2 6 3 (fun _ => 4) (by decide)).2 (by decide)
      (by decide)).2]
    decide

/-- C6 (divergence at the failing input): Alice (player faction, inserted
first) and the Goblin (opposing faction) both roll initiative 14.  The
canonical `CombatTracker.roll_initiative` orders the player first, as
claimed; but `CombatAgent._roll_initiative` — whose own inline comment
says "player characters go before enemies" — produces the enemy first,
because it maps players to tiebreak key 0 and then sorts the whole key
descending. -/
theorem claim_C6_tiebreak_divergence :
    (roll_initiative demoTracker (fun _ => 14)).initiative_order =
      ["Alice", "Goblin"] ∧
    agent_roll_initiative [agentAlice, agentGoblin] (fun _ => 14) =
      ["Goblin", "Alice"] := by decide

end Spec2Proof
